import Mathlib

/-!
Shallow embedding of the `analyze-image` relay (the Deno edge function embedded
in `src/src/components/RumpexHome.tsx`, lines 450-608) together with the JSON
values it manipulates.  The handler is modelled as a pure function over its
effect outcomes: the result of `await req.json()`, the configured API key
(`Deno.env.get`), and the single upstream `fetch` outcome.
-/

namespace Rumpex

/-- JSON values as produced by `JSON.parse`: a number is kept exactly as the
pair of its decimal mantissa and exponent (value = mantissa * 10 ^ exp10).
Every number in this development is a small integer, written with exponent 0,
where this representation, IEEE doubles and the source text all agree; the
handler never computes with numbers, it only passes them through. Objects
keep their fields in source order; lookup takes the last occurrence of a
repeated name, as ECMAScript does. -/
inductive Json where
  | null : Json
  | bool : Bool → Json
  | num : Int → Int → Json
  | str : String → Json
  | arr : List Json → Json
  | obj : List (String × Json) → Json

mutual

/-- Structural equality test on JSON values. -/
def Json.beq : Json → Json → Bool
  | .null, .null => true
  | .bool a, .bool b => a = b
  | .num a b, .num c d => a = c && b = d
  | .str a, .str b => a = b
  | .arr a, .arr b => Json.beqList a b
  | .obj a, .obj b => Json.beqFields a b
  | _, _ => false

/-- Structural equality test on lists of JSON values. -/
def Json.beqList : List Json → List Json → Bool
  | [], [] => true
  | x :: xs, y :: ys => Json.beq x y && Json.beqList xs ys
  | _, _ => false

/-- Structural equality test on lists of JSON object fields. -/
def Json.beqFields : List (String × Json) → List (String × Json) → Bool
  | [], [] => true
  | (k₁, v₁) :: xs, (k₂, v₂) :: ys =>
      k₁ = k₂ && Json.beq v₁ v₂ && Json.beqFields xs ys
  | _, _ => false

end

mutual

theorem Json.beq_iff_eq : ∀ a b : Json, Json.beq a b = true ↔ a = b
  | .null, .null => by simp [Json.beq]
  | .bool _, .bool _ => by simp [Json.beq]
  | .num _ _, .num _ _ => by simp [Json.beq]
  | .str _, .str _ => by simp [Json.beq]
  | .arr x, .arr y => by simp [Json.beq, Json.beqList_iff_eq x y]
  | .obj x, .obj y => by simp [Json.beq, Json.beqFields_iff_eq x y]
  | .null, .bool _ | .null, .num _ _ | .null, .str _ | .null, .arr _ | .null, .obj _
  | .bool _, .null | .bool _, .num _ _ | .bool _, .str _ | .bool _, .arr _ | .bool _, .obj _
  | .num _ _, .null | .num _ _, .bool _ | .num _ _, .str _ | .num _ _, .arr _ | .num _ _, .obj _
  | .str _, .null | .str _, .bool _ | .str _, .num _ _ | .str _, .arr _ | .str _, .obj _
  | .arr _, .null | .arr _, .bool _ | .arr _, .num _ _ | .arr _, .str _ | .arr _, .obj _
  | .obj _, .null | .obj _, .bool _ | .obj _, .num _ _ | .obj _, .str _ | .obj _, .arr _ => by
      simp [Json.beq]

theorem Json.beqList_iff_eq : ∀ xs ys : List Json, Json.beqList xs ys = true ↔ xs = ys
  | [], [] => by simp [Json.beqList]
  | x :: xs, y :: ys => by
      simp [Json.beqList, Json.beq_iff_eq x y, Json.beqList_iff_eq xs ys]
  | [], _ :: _ => by simp [Json.beqList]
  | _ :: _, [] => by simp [Json.beqList]

theorem Json.beqFields_iff_eq :
    ∀ xs ys : List (String × Json), Json.beqFields xs ys = true ↔ xs = ys
  | [], [] => by simp [Json.beqFields]
  | (k₁, v₁) :: xs, (k₂, v₂) :: ys => by
      simp [Json.beqFields, Json.beq_iff_eq v₁ v₂, Json.beqFields_iff_eq xs ys, and_assoc]
  | [], _ :: _ => by simp [Json.beqFields]
  | _ :: _, [] => by simp [Json.beqFields]

end

instance : DecidableEq Json := fun a b => decidable_of_iff _ (Json.beq_iff_eq a b)

/-- The open-brace character, kept as a named constant. -/
def lbrace : Char := Char.ofNat 123

/-- The close-brace character, kept as a named constant. -/
def rbrace : Char := Char.ofNat 125

/-! ## A model of `JSON.parse`

A recursive-descent parser for the JSON grammar (RFC 8259), as `JSON.parse`
implements it: optional whitespace around tokens, strict number syntax (no
leading zeros, a fraction or exponent must carry at least one digit), string
escapes, and no trailing input after the top-level value.  Recursion is fueled;
`jsonParse` hands the parser more fuel than any input of that length can
consume, and every theorem below that needs a parse result takes it as an
explicit hypothesis or evaluates the parser on a concrete string. -/

/-- JSON insignificant whitespace: space, tab, line feed, carriage return. -/
def isJsonWs (c : Char) : Bool := c = ' ' || c = '\t' || c = '\n' || c = '\r'

/-- Drop leading JSON whitespace. -/
def skipWs (cs : List Char) : List Char := cs.dropWhile isJsonWs

/-- Numeric value of a digit run, most significant first. -/
def digitsToNat (ds : List Char) : Nat :=
  ds.foldl (fun a c => a * 10 + (c.toNat - 48)) 0

/-- Split a leading run of decimal digits from the input. -/
def takeDigits (cs : List Char) : List Char × List Char :=
  (cs.takeWhile Char.isDigit, cs.dropWhile Char.isDigit)

/-- Parse the optional fraction part `.digits`; fails on a dot without
digits. Returns the fraction digits (possibly none) and the rest. -/
def parseFrac (cs : List Char) : Option (List Char × List Char) :=
  match cs with
  | '.' :: t =>
      match takeDigits t with
      | ([], _) => none
      | (ds, r) => some (ds, r)
  | _ => some ([], cs)

/-- Parse the optional exponent part `[eE][+-]?digits`; fails on a marker
without digits. Returns the signed exponent value and the rest. -/
def parseExpPart (cs : List Char) : Option (Int × List Char) :=
  match cs with
  | c :: t =>
      if c = 'e' || c = 'E' then
        let (eneg, t₁) : Bool × List Char :=
          match t with
          | '-' :: t₂ => (true, t₂)
          | '+' :: t₂ => (false, t₂)
          | _ => (false, t)
        match takeDigits t₁ with
        | ([], _) => none
        | (ds, r) => some (if eneg then -(digitsToNat ds : Int) else (digitsToNat ds : Int), r)
      else some (0, cs)
  | [] => some (0, cs)

/-- Parse a JSON number into its exact mantissa/decimal-exponent pair. -/
def parseNumber (cs : List Char) : Option ((Int × Int) × List Char) :=
  let (neg, cs₁) : Bool × List Char :=
    match cs with
    | '-' :: t => (true, t)
    | _ => (false, cs)
  match takeDigits cs₁ with
  | ([], _) => none
  | (ids, cs₂) =>
      if 2 ≤ ids.length ∧ ids.head? = some '0' then none
      else
        match parseFrac cs₂ with
        | none => none
        | some (fds, cs₃) =>
            match parseExpPart cs₃ with
            | none => none
            | some (e, cs₄) =>
                let mantissa : Int := (digitsToNat (ids ++ fds) : Int)
                let scale : Int := e - (fds.length : Int)
                some ((if neg then -mantissa else mantissa, scale), cs₄)

/-- Value of a hexadecimal digit, if any. -/
def hexVal (c : Char) : Option Nat :=
  if '0' ≤ c ∧ c ≤ '9' then some (c.toNat - 48)
  else if 'a' ≤ c ∧ c ≤ 'f' then some (c.toNat - 87)
  else if 'A' ≤ c ∧ c ≤ 'F' then some (c.toNat - 55)
  else none

/-- Parse the body of a JSON string after the opening quote, handling the
escape sequences `JSON.parse` accepts and rejecting raw control characters.
(`\uXXXX` is mapped through `Char.ofNat`; lone surrogates, which Unicode
scalar values cannot represent, fall to the replacement behaviour of
`Char.ofNat`.) -/
def parseStringBody : Nat → List Char → Option (List Char × List Char)
  | 0, _ => none
  | fuel + 1, cs =>
      match cs with
      | [] => none
      | '"' :: t => some ([], t)
      | '\\' :: e :: t =>
          let cont (c : Char) (rest : List Char) : Option (List Char × List Char) :=
            (parseStringBody fuel rest).map (fun p => (c :: p.1, p.2))
          if e = '"' then cont '"' t
          else if e = '\\' then cont '\\' t
          else if e = '/' then cont '/' t
          else if e = 'b' then cont (Char.ofNat 8) t
          else if e = 'f' then cont (Char.ofNat 12) t
          else if e = 'n' then cont '\n' t
          else if e = 'r' then cont '\r' t
          else if e = 't' then cont '\t' t
          else if e = 'u' then
            match t with
            | h₁ :: h₂ :: h₃ :: h₄ :: t' =>
                match hexVal h₁, hexVal h₂, hexVal h₃, hexVal h₄ with
                | some a, some b, some c, some d =>
                    cont (Char.ofNat (((a * 16 + b) * 16 + c) * 16 + d)) t'
                | _, _, _, _ => none
            | _ => none
          else none
      | c :: t =>
          if c.toNat < 32 then none
          else (parseStringBody fuel t).map (fun p => (c :: p.1, p.2))

mutual

/-- Parse one JSON value (leading whitespace allowed), returning it and the
unconsumed rest of the input. -/
def parseValue : Nat → List Char → Option (Json × List Char)
  | 0, _ => none
  | fuel + 1, cs =>
      match skipWs cs with
      | [] => none
      | c :: t =>
          if c = '"' then
            (parseStringBody (fuel + 1) t).map (fun p => (Json.str (String.mk p.1), p.2))
          else if c = lbrace then
            match skipWs t with
            | c' :: t' =>
                if c' = rbrace then some (Json.obj [], t')
                else
                  (parseMembers fuel (c' :: t')).map (fun p => (Json.obj p.1, p.2))
            | [] => none
          else if c = '[' then
            match skipWs t with
            | ']' :: t' => some (Json.arr [], t')
            | rest => (parseElems fuel rest).map (fun p => (Json.arr p.1, p.2))
          else if c = 't' then
            match t with
            | 'r' :: 'u' :: 'e' :: r => some (Json.bool true, r)
            | _ => none
          else if c = 'f' then
            match t with
            | 'a' :: 'l' :: 's' :: 'e' :: r => some (Json.bool false, r)
            | _ => none
          else if c = 'n' then
            match t with
            | 'u' :: 'l' :: 'l' :: r => some (Json.null, r)
            | _ => none
          else
            (parseNumber (c :: t)).map (fun p => (Json.num p.1.1 p.1.2, p.2))

/-- Parse the members of a JSON object after `{`, up to and including the
closing brace. -/
def parseMembers : Nat → List Char → Option (List (String × Json) × List Char)
  | 0, _ => none
  | fuel + 1, cs =>
      match skipWs cs with
      | '"' :: t =>
          match parseStringBody (fuel + 1) t with
          | none => none
          | some (k, r₁) =>
              match skipWs r₁ with
              | ':' :: r₂ =>
                  match parseValue fuel r₂ with
                  | none => none
                  | some (v, r₃) =>
                      match skipWs r₃ with
                      | c :: r₄ =>
                          if c = ',' then
                            (parseMembers fuel r₄).map
                              (fun p => ((String.mk k, v) :: p.1, p.2))
                          else if c = rbrace then some ([(String.mk k, v)], r₄)
                          else none
                      | [] => none
              | _ => none
      | _ => none

/-- Parse the elements of a JSON array after `[`, up to and including the
closing bracket. -/
def parseElems : Nat → List Char → Option (List Json × List Char)
  | 0, _ => none
  | fuel + 1, cs =>
      match parseValue fuel cs with
      | none => none
      | some (v, r₁) =>
          match skipWs r₁ with
          | ',' :: r₂ => (parseElems fuel r₂).map (fun p => (v :: p.1, p.2))
          | ']' :: r₂ => some ([v], r₂)
          | _ => none

end

/-- The model of `JSON.parse`: parse one value, allow surrounding whitespace,
reject any other trailing input.  `none` models a thrown `SyntaxError`. -/
def jsonParse (s : String) : Option Json :=
  match parseValue (2 * s.data.length + 8) s.data with
  | some (v, rest) => if skipWs rest = [] then some v else none
  | none => none

/-! ## JavaScript value semantics used by the handler

A JavaScript expression in the handler evaluates to either a JSON value or
`undefined`; `Option Json` models this, with `none` standing for `undefined`.
Property access on `undefined` or `null` throws a `TypeError`, modelled by
`Except String` with the message text standing in for that of the runtime. -/

/-- A JavaScript value reachable in the handler: a JSON value or `undefined`. -/
abbrev JSV := Option Json

/-- JavaScript falsiness on the values reachable here: `undefined`, `null`,
`false`, `0` and `""` are falsy; every array and object is truthy. -/
def jsFalsy : JSV → Bool
  | none => true
  | some Json.null => true
  | some (Json.bool b) => !b
  | some (Json.num m _) => m = 0
  | some (Json.str s) => s = ""
  | some (Json.arr _) => false
  | some (Json.obj _) => false

/-- Field lookup in a parsed object: the last binding of a repeated name wins,
as in the object `JSON.parse` builds. -/
def lookupLast : List (String × Json) → String → Option Json
  | [], _ => none
  | (k', v) :: t, k =>
      match lookupLast t k with
      | some w => some w
      | none => if k' = k then some v else none

/-- The JavaScript property read `v.k` (for a non-index name): throws on
`undefined` and `null`, looks up the field on an object, and yields
`undefined` on the other primitives and on arrays. -/
def jsGetProp (v : JSV) (k : String) : Except String JSV :=
  match v with
  | none => .error ("Cannot read properties of undefined (reading " ++ k ++ ")")
  | some Json.null => .error ("Cannot read properties of null (reading " ++ k ++ ")")
  | some (Json.obj kvs) => .ok (lookupLast kvs k)
  | some _ => .ok none

/-- The JavaScript element read `v[0]`: throws on `undefined` and `null`,
takes the first element of an array, the `"0"` field of an object, the first
character of a string, and yields `undefined` otherwise. -/
def jsGetIdx0 (v : JSV) : Except String JSV :=
  match v with
  | none => .error "Cannot read properties of undefined (reading 0)"
  | some Json.null => .error "Cannot read properties of null (reading 0)"
  | some (Json.arr xs) => .ok xs.head?
  | some (Json.obj kvs) => .ok (lookupLast kvs "0")
  | some (Json.str s) => .ok (s.data.head?.map (fun c => Json.str (String.mk [c])))
  | some _ => .ok none

/-! ## The regex `/\x7b[\s\S]*\x7d/` and `String.split` -/

/-- Drop characters up to (and keeping) the first open brace; `[]` if there is
none. -/
def dropUntilBrace : List Char → List Char
  | [] => []
  | c :: t => if c = lbrace then c :: t else dropUntilBrace t

/-- The call of `analysisText.match` against the regex: a match exists when some open
brace is followed, strictly later, by a close brace; being greedy, the match
runs from the first such open brace to the last close brace of the whole
text. -/
def jsonMatchCL (cs : List Char) : Option (List Char) :=
  match dropUntilBrace cs with
  | [] => none
  | b :: rest =>
      let r := rest.reverse.dropWhile (fun c => ¬ c = rbrace)
      if r = [] then none else some (b :: r.reverse)

/-- Splitting at commas, as `String.split` does: fields between consecutive separators, empty
fields kept, one field for a separator-free string. -/
def splitComma : List Char → List (List Char)
  | [] => [[]]
  | c :: t =>
      if c = ',' then [] :: splitComma t
      else
        match splitComma t with
        | [] => [[c]]
        | g :: gs => (c :: g) :: gs

/-- Line 482: `image.split(',')[1] || image` — the second comma-separated
field when it exists and is non-empty, the whole string otherwise. -/
def base64DataOf (image : String) : String :=
  match (splitComma image.data).get? 1 with
  | some seg => if String.mk seg = "" then image else String.mk seg
  | none => image

/-! ## The handler constants -/

/-- Lines 452-455: the permissive CORS header set. -/
def corsHeaders : List (String × String) :=
  [("Access-Control-Allow-Origin", "*"),
   ("Access-Control-Allow-Headers", "authorization, x-client-info, apikey, content-type")]

/-- The header set `\x7b...corsHeaders, Content-Type: application/json\x7d`
attached to every non-preflight response. -/
def jsonHeaders : List (String × String) :=
  corsHeaders ++ [("Content-Type", "application/json")]

/-- Lines 484-509: the built-in veterinary-analysis instruction. It is the
only instruction text the handler ever sends; the destructured `prompt` field
of the request body is not used anywhere in the function. -/
def analysisPrompt : String :=
  "Eres un experto veterinario especializado en evaluación del ángulo de anca en vacas lecheras. \n\nAnaliza esta imagen de una vaca y evalúa el ángulo de su anca. Debes responder ÚNICAMENTE con un JSON válido en el siguiente formato exacto:\n\n\x7b\n  \"valido\": boolean,\n  \"razonInvalidez\": string|null,\n  \"numeroVacasDetectadas\": number,\n  \"vacaAnalizada\": number|null,\n  \"anguloCm\": number|null,\n  \"puntajeLineal\": number|null,\n  \"categoria\": \"Alto|Nivelado|Ligera caída|Intermedio|Pronunciada\",\n  \"recomendacion\": string|null\n\x7d\n\nCriterios:\n- valido: true si hay al menos una vaca visible y se puede evaluar el anca, false si no\n- razonInvalidez: explicación si valido=false\n- numeroVacasDetectadas: cantidad de vacas en la imagen\n- vacaAnalizada: número de la vaca analizada (1, 2, etc.)\n- anguloCm: ángulo del anca en grados (15-35° típico)\n- puntajeLineal: escala 1-9 donde 1=muy caído, 5=nivelado, 9=muy alto\n- categoria: clasificación según puntaje\n- recomendacion: consejo breve para el ganadero\n\nNO agregues texto adicional, solo el JSON."

/-- Lines 583-592: the canonical fallback `AnalysisResult` returned when no
JSON span is found in the model text or the found span fails to parse. -/
def fallbackResult : Json :=
  Json.obj
    [("valido", Json.bool false),
     ("razonInvalidez",
       Json.str "Error al procesar la respuesta del análisis. Intenta con otra imagen."),
     ("numeroVacasDetectadas", Json.num 0 0),
     ("vacaAnalizada", Json.null),
     ("anguloCm", Json.null),
     ("puntajeLineal", Json.null),
     ("categoria", Json.null),
     ("recomendacion", Json.null)]

/-! ## The handler -/

/-- An HTTP response as the handler builds it: status (200 when the source
passes no `status` option to `new Response`), headers, and the JSON body
(`none` models the `null` body of the preflight response). -/
structure HttpResponse where
  status : Nat
  headers : List (String × String)
  body : Option Json
deriving DecidableEq

/-- A response carrying a JSON body with the shared header set. -/
def mkJsonResponse (status : Nat) (body : Json) : HttpResponse :=
  { status := status, headers := jsonHeaders, body := some body }

/-- Lines 511-531: the upstream generation request the handler builds —
the instruction text, the inline image with its fixed declared MIME type,
and the fixed generation parameters. -/
structure GeminiRequest where
  text : String
  mimeType : String
  data : String
  temperature : Rat
  topK : Nat
  topP : Nat
  maxOutputTokens : Nat
deriving DecidableEq

/-- The request built for an image string `s` (line 482 and lines 511-531):
data-URL payload extraction, fixed `image/jpeg` MIME type, fixed generation
parameters, and always the built-in instruction text. -/
def buildGeminiRequest (s : String) : GeminiRequest :=
  { text := analysisPrompt,
    mimeType := "image/jpeg",
    data := base64DataOf s,
    temperature := 3 / 10,
    topK := 32,
    topP := 1,
    maxOutputTokens := 512 }

/-- The outcome of the single upstream `fetch`: HTTP status and body text
(the ok-branch reads it with `response.json()`, the error branch with
`response.text()`). -/
structure FetchOutcome where
  status : Nat
  bodyText : String
deriving DecidableEq

/-- The test `response.ok`: status in the inclusive range 200-299. -/
def fetchOk (u : FetchOutcome) : Bool :=
  decide (200 ≤ u.status) && decide (u.status ≤ 299)

/-- Lines 466-471: the missing-image envelope. -/
def badRequestResp : HttpResponse :=
  mkJsonResponse 400 (Json.obj [("error", Json.str "Image is required")])

/-- Lines 473-479: the missing-credential envelope. -/
def configErrorResp : HttpResponse :=
  mkJsonResponse 500 (Json.obj [("error", Json.str "Google API key not configured")])

/-- Lines 543-553: the non-success upstream envelope, reusing the upstream
status code. -/
def upstreamErrorResp (u : FetchOutcome) : HttpResponse :=
  { status := u.status,
    headers := jsonHeaders,
    body := some (Json.obj
      [("error", Json.str "Error from Gemini API"),
       ("details", Json.str u.bodyText)]) }

/-- Lines 558-566: the malformed-candidate-structure envelope. -/
def shapeErrorResp (data : Json) : HttpResponse :=
  mkJsonResponse 500 (Json.obj
    [("error", Json.str "No valid response from Gemini API"),
     ("data", data)])

/-- Lines 599-607: the catch-all envelope,
`error.message || "Internal server error"`. -/
def catchAllResp (msg : String) : HttpResponse :=
  mkJsonResponse 500 (Json.obj
    [("error", Json.str (if msg = "" then "Internal server error" else msg))])

/-- Falsiness of the `Deno.env.get` result: the key is unusable when unset or empty. -/
def keyFalsy : Option String → Bool
  | none => true
  | some s => s = ""

/-- Lines 466-531, after the body has been read: check the image, check the
credential, build the upstream request. `Except.error` is a thrown exception
bound for the catch-all; `Sum.inl` is an early response; `Sum.inr` is the
request to send upstream. -/
def checkAndBuild (body : Json) (apiKey : Option String) :
    Except String (HttpResponse ⊕ GeminiRequest) :=
  match jsGetProp (some body) "image" with
  | .error msg => .error msg
  | .ok image =>
      if jsFalsy image then .ok (Sum.inl badRequestResp)
      else if keyFalsy apiKey then .ok (Sum.inl configErrorResp)
      else
        match image with
        | some (Json.str s) => .ok (Sum.inr (buildGeminiRequest s))
        | _ => .error "image.split is not a function"

/-- Lines 464-531, up to the `fetch`: `await req.json()` (whose failure is a
thrown exception) followed by the checks above. -/
def preUpstream (bodyOutcome : Except String Json) (apiKey : Option String) :
    Except String (HttpResponse ⊕ GeminiRequest) :=
  match bodyOutcome with
  | .error msg => .error msg
  | .ok body => checkAndBuild body apiKey

/-- Lines 570-597: extract a JSON span from the model text and parse it, any
failure (no span, unparseable span, or a `.match` call on a non-string)
landing on the fallback result — the inner `try/catch` never lets an
exception escape. -/
def normalizeText (analysisText : JSV) : Json :=
  match analysisText with
  | some (Json.str s) =>
      match jsonMatchCL s.data with
      | some sub =>
          match jsonParse (String.mk sub) with
          | some v => v
          | none => fallbackResult
      | none => fallbackResult
  | _ => fallbackResult

/-- Lines 555-597, the success-status path: parse the upstream body (a parse
failure models `response.json()` throwing), check
`candidates / candidates[0] / candidates[0].content`, then read
`content.parts[0].text` (whose property reads can throw) and normalize. -/
def handleOkPath (bodyText : String) : Except String HttpResponse :=
  match jsonParse bodyText with
  | none => .error "Unexpected end of JSON input"
  | some data =>
      match jsGetProp (some data) "candidates" with
      | .error msg => .error msg
      | .ok cand =>
          if jsFalsy cand then .ok (shapeErrorResp data)
          else
            match jsGetIdx0 cand with
            | .error msg => .error msg
            | .ok c0 =>
                if jsFalsy c0 then .ok (shapeErrorResp data)
                else
                  match jsGetProp c0 "content" with
                  | .error msg => .error msg
                  | .ok content =>
                      if jsFalsy content then .ok (shapeErrorResp data)
                      else
                        match jsGetProp content "parts" with
                        | .error msg => .error msg
                        | .ok parts =>
                            match jsGetIdx0 parts with
                            | .error msg => .error msg
                            | .ok p0 =>
                                match jsGetProp p0 "text" with
                                | .error msg => .error msg
                                | .ok t => .ok (mkJsonResponse 200 (normalizeText t))

/-- Lines 543-597: route on `response.ok`. -/
def postUpstream (u : FetchOutcome) : Except String HttpResponse :=
  if fetchOk u then handleOkPath u.bodyText
  else .ok (upstreamErrorResp u)

/-- What one invocation of the handler produced: the response sent back, and
the upstream request if (and only if) the single `fetch` was reached. -/
structure RelayOutcome where
  response : HttpResponse
  upstreamRequest : Option GeminiRequest
deriving DecidableEq

/-- Lines 459-461: the preflight short-circuit — empty body, exactly the CORS
headers, default 200 status. -/
def optionsResp : HttpResponse :=
  { status := 200, headers := corsHeaders, body := none }

/-- The whole handler (lines 457-608), as a function of the request method,
the outcome of reading the request body as JSON, the configured API key, and
the outcome of the single upstream call. -/
def handle (method : String) (bodyOutcome : Except String Json)
    (apiKey : Option String) (upstream : FetchOutcome) : RelayOutcome :=
  if method = "OPTIONS" then ⟨optionsResp, none⟩
  else
    match preUpstream bodyOutcome apiKey with
    | .error msg => ⟨catchAllResp msg, none⟩
    | .ok (Sum.inl resp) => ⟨resp, none⟩
    | .ok (Sum.inr gr) =>
        match postUpstream upstream with
        | .error msg => ⟨catchAllResp msg, some gr⟩
        | .ok resp => ⟨resp, some gr⟩

/-! ## Helper lemmas -/

theorem splitComma_ne_nil : ∀ l : List Char, splitComma l ≠ []
  | [] => by simp [splitComma]
  | c :: t => by
      simp only [splitComma]
      split
      · simp
      · split
        · simp
        · simp

theorem splitComma_no_comma : ∀ l : List Char, ',' ∉ l → splitComma l = [l]
  | [], _ => rfl
  | c :: t, h => by
      have hc : ¬ c = ',' := fun hc => h (hc ▸ List.mem_cons_self c t)
      have ht : ',' ∉ t := fun m => h (List.mem_cons_of_mem c m)
      simp only [splitComma, if_neg hc, splitComma_no_comma t ht]

theorem splitComma_append : ∀ pre rest : List Char, ',' ∉ pre →
    splitComma (pre ++ ',' :: rest) = pre :: splitComma rest
  | [], rest, _ => by simp [splitComma]
  | c :: t, rest, h => by
      have hc : ¬ c = ',' := fun hc => h (hc ▸ List.mem_cons_self c t)
      have ht : ',' ∉ t := fun m => h (List.mem_cons_of_mem c m)
      simp only [List.cons_append, splitComma, if_neg hc, List.append_eq]
      rw [splitComma_append t rest ht]

theorem base64DataOf_dataUrl (pre payload : String)
    (hpre : ',' ∉ pre.data) (hpay : ',' ∉ payload.data) (hne : payload ≠ "") :
    base64DataOf (pre ++ "," ++ payload) = payload := by
  have hdata : (pre ++ "," ++ payload).data = pre.data ++ ',' :: payload.data := by
    simp [String.data_append]
  unfold base64DataOf
  rw [hdata, splitComma_append pre.data payload.data hpre,
      splitComma_no_comma payload.data hpay]
  simp [hne]

theorem base64DataOf_no_comma (s : String) (h : ',' ∉ s.data) :
    base64DataOf s = s := by
  unfold base64DataOf
  rw [splitComma_no_comma s.data h]
  rfl

theorem dropUntilBrace_append_no_lbrace :
    ∀ pre l : List Char, lbrace ∉ pre → dropUntilBrace (pre ++ l) = dropUntilBrace l
  | [], l, _ => rfl
  | c :: t, l, h => by
      have hc : ¬ c = lbrace := fun hc => h (hc ▸ List.mem_cons_self c t)
      have ht : lbrace ∉ t := fun m => h (List.mem_cons_of_mem c m)
      simp only [List.cons_append, dropUntilBrace, if_neg hc]
      exact dropUntilBrace_append_no_lbrace t l ht

theorem dropWhile_append_all {α : Type} {p : α → Bool} :
    ∀ a b : List α, (∀ x ∈ a, p x = true) → (a ++ b).dropWhile p = b.dropWhile p
  | [], _, _ => rfl
  | x :: xs, b, h => by
      have hx : p x = true := h x (List.mem_cons_self x xs)
      have hxs : ∀ y ∈ xs, p y = true := fun y m => h y (List.mem_cons_of_mem x m)
      simp only [List.cons_append, List.dropWhile_cons, hx, if_true,
        dropWhile_append_all xs b hxs]

/-- The greedy regex extracts exactly the embedded span when no open brace
occurs before it and no close brace occurs after it. -/
theorem jsonMatchCL_decompose (pre mid post : List Char)
    (hpre : lbrace ∉ pre) (hpost : rbrace ∉ post) :
    jsonMatchCL (pre ++ (lbrace :: (mid ++ [rbrace])) ++ post)
      = some (lbrace :: (mid ++ [rbrace])) := by
  unfold jsonMatchCL
  have h1 : dropUntilBrace (pre ++ (lbrace :: (mid ++ [rbrace])) ++ post)
      = lbrace :: ((mid ++ [rbrace]) ++ post) := by
    rw [List.append_assoc, dropUntilBrace_append_no_lbrace pre _ hpre]
    simp [dropUntilBrace]
  rw [h1]
  have hallpost : ∀ x ∈ post.reverse, (fun c => ¬ c = rbrace : Char → Bool) x = true := by
    intro x hx
    have : x ∈ post := List.mem_reverse.mp hx
    simp only [decide_eq_true_eq]
    exact fun he => hpost (he ▸ this)
  have h2 : ((mid ++ [rbrace]) ++ post).reverse.dropWhile (fun c => ¬ c = rbrace)
      = rbrace :: mid.reverse := by
    rw [List.reverse_append, dropWhile_append_all post.reverse _ hallpost]
    simp [List.dropWhile_cons]
  simp only [h2]
  simp

/-- Whenever the pre-upstream stage decides to call upstream, the request it
built carries the built-in instruction text. -/
theorem checkAndBuild_inr_text (body : Json) (k : Option String)
    (gr : GeminiRequest) (h : checkAndBuild body k = .ok (Sum.inr gr)) :
    gr.text = analysisPrompt := by
  unfold checkAndBuild at h
  split at h
  · exact absurd h (by simp)
  · split at h
    · exact absurd h (by simp)
    · split at h
      · exact absurd h (by simp)
      · split at h
        · simp only [Except.ok.injEq, Sum.inr.injEq] at h
          rw [← h]; rfl
        · exact absurd h (by simp)

theorem preUpstream_inr_text (bo : Except String Json) (k : Option String)
    (gr : GeminiRequest) (h : preUpstream bo k = .ok (Sum.inr gr)) :
    gr.text = analysisPrompt := by
  unfold preUpstream at h
  split at h
  · exact absurd h (by simp)
  · exact checkAndBuild_inr_text _ k gr h

/-- Every early response of the pre-upstream stage carries the shared JSON
header set. -/
theorem checkAndBuild_inl_headers (body : Json) (k : Option String)
    (r : HttpResponse) (h : checkAndBuild body k = .ok (Sum.inl r)) :
    r.headers = jsonHeaders := by
  unfold checkAndBuild at h
  split at h
  · exact absurd h (by simp)
  · split at h
    · simp only [Except.ok.injEq, Sum.inl.injEq] at h
      rw [← h]; rfl
    · split at h
      · simp only [Except.ok.injEq, Sum.inl.injEq] at h
        rw [← h]; rfl
      · split at h
        · exact absurd h (by simp)
        · exact absurd h (by simp)

theorem preUpstream_inl_headers (bo : Except String Json) (k : Option String)
    (r : HttpResponse) (h : preUpstream bo k = .ok (Sum.inl r)) :
    r.headers = jsonHeaders := by
  unfold preUpstream at h
  split at h
  · exact absurd h (by simp)
  · exact checkAndBuild_inl_headers _ k r h

/-- Every response of the success-status path carries the shared JSON header
set. -/
theorem handleOkPath_ok_headers (bodyText : String) (r : HttpResponse)
    (h : handleOkPath bodyText = .ok r) : r.headers = jsonHeaders := by
  unfold handleOkPath at h
  split at h
  · exact absurd h (by simp)
  · split at h
    · exact absurd h (by simp)
    · split at h
      · simp only [Except.ok.injEq] at h
        rw [← h]; rfl
      · split at h
        · exact absurd h (by simp)
        · split at h
          · simp only [Except.ok.injEq] at h
            rw [← h]; rfl
          · split at h
            · exact absurd h (by simp)
            · split at h
              · simp only [Except.ok.injEq] at h
                rw [← h]; rfl
              · split at h
                · exact absurd h (by simp)
                · split at h
                  · exact absurd h (by simp)
                  · split at h
                    · exact absurd h (by simp)
                    · simp only [Except.ok.injEq] at h
                      rw [← h]; rfl

/-- Every response of the post-upstream stage carries the shared JSON header
set. -/
theorem postUpstream_ok_headers (u : FetchOutcome) (r : HttpResponse)
    (h : postUpstream u = .ok r) : r.headers = jsonHeaders := by
  unfold postUpstream at h
  split at h
  · exact handleOkPath_ok_headers u.bodyText r h
  · simp only [Except.ok.injEq] at h
    rw [← h]; rfl

/-! ## Concrete fixtures shared by the claim theorems -/

/-- A minimal valid request body: an image with no data-URL wrapper. -/
def body1 : Json := Json.obj [("image", Json.str "IMG")]

/-- The upstream request the handler builds for `body1`. -/
def gemReq1 : GeminiRequest := buildGeminiRequest "IMG"

/-- A well-shaped upstream reply value whose single candidate text is `t`. -/
def candObj (t : String) : Json :=
  Json.obj
    [("candidates", Json.arr
      [Json.obj
        [("content", Json.obj
          [("parts", Json.arr
            [Json.obj [("text", Json.str t)]])])]])]

/-- Running the full handler on `body1` against a 200 upstream reply whose
body parses to a well-shaped candidate structure with text `t` normalizes
that text. -/
theorem handle_post_body1 (bodyText t : String)
    (hbody : jsonParse bodyText = some (candObj t)) :
    handle "POST" (Except.ok body1) (some "k") ⟨200, bodyText⟩
      = ⟨mkJsonResponse 200 (normalizeText (some (Json.str t))), some gemReq1⟩ := by
  have hpre : preUpstream (Except.ok body1) (some "k") = .ok (Sum.inr gemReq1) := rfl
  have hpost : postUpstream ⟨200, bodyText⟩
      = .ok (mkJsonResponse 200 (normalizeText (some (Json.str t)))) := by
    unfold postUpstream
    rw [if_pos (show fetchOk ⟨200, bodyText⟩ = true from rfl)]
    unfold handleOkPath
    rw [hbody]
    rfl
  unfold handle
  rw [if_neg (by decide : ¬ ("POST" = "OPTIONS")), hpre, hpost]

/-! ## Claim theorems -/

/-- C1, counterexample: for the request `\x7b"image": "IMG", "prompt": "foo"\x7d`
with a non-empty caller-supplied prompt, the instruction text embedded in the
upstream request is the built-in veterinary instruction, not the prompt of
the caller — refuting the claim that a non-empty caller prompt is used. -/
theorem c1_counterexample :
    (handle "POST"
        (Except.ok (Json.obj [("image", Json.str "IMG"), ("prompt", Json.str "foo")]))
        (some "k") ⟨503, "boom"⟩).upstreamRequest.map GeminiRequest.text
      = some analysisPrompt
    ∧ analysisPrompt ≠ "foo" := by
  constructor
  · rfl
  · decide

/-- C1, amended: the instruction text embedded in the upstream generation
request is always the built-in veterinary-analysis instruction; the
caller-supplied `prompt` field is read out of the body but never used. -/
theorem c1_theorem (method : String) (bo : Except String Json)
    (k : Option String) (u : FetchOutcome) (gr : GeminiRequest)
    (h : (handle method bo k u).upstreamRequest = some gr) :
    gr.text = analysisPrompt := by
  unfold handle at h
  split at h
  · exact absurd h (by simp [optionsResp])
  · revert h
    cases hp : preUpstream bo k with
    | error msg => intro h; exact absurd h (by simp)
    | ok s =>
        cases s with
        | inl r => intro h; exact absurd h (by simp)
        | inr gr' =>
            cases postUpstream u with
            | error msg =>
                intro h
                simp only [Option.some.injEq] at h
                rw [← h]
                exact preUpstream_inr_text bo k gr' hp
            | ok r =>
                intro h
                simp only [Option.some.injEq] at h
                rw [← h]
                exact preUpstream_inr_text bo k gr' hp

/-- C1, witness for the amended theorem at a concrete request. -/
theorem c1_witness : gemReq1.text = analysisPrompt :=
  c1_theorem "POST" (Except.ok body1) (some "k") ⟨503, "boom"⟩ gemReq1 rfl

/-- A candidate text with one balanced JSON object span but a stray close
brace in the prose suffix. -/
def t2Text : String := "pre \x7b\"valido\": true\x7d post\x7d"

/-- An upstream reply body whose candidate text is `t2Text`. -/
def b2Body : String :=
  "\x7b\"candidates\": [\x7b\"content\": \x7b\"parts\": [\x7b\"text\": \"pre \x7b\\\"valido\\\": true\x7d post\x7d\"\x7d]\x7d\x7d]\x7d"

/-- C2, counterexample: the candidate text `pre \x7b"valido": true\x7d post\x7d`
contains exactly one balanced JSON object span, `\x7b"valido": true\x7d`
(the lone extra close brace in the suffix closes nothing), yet the relay
returns the canonical fallback, not that object: the greedy match runs to the
last close brace of the whole text and the extended span fails to parse. -/
theorem c2_counterexample :
    jsonParse b2Body = some (candObj t2Text)
    ∧ t2Text = "pre " ++ "\x7b\"valido\": true\x7d" ++ " post\x7d"
    ∧ jsonParse "\x7b\"valido\": true\x7d" = some (Json.obj [("valido", Json.bool true)])
    ∧ (handle "POST" (Except.ok body1) (some "k") ⟨200, b2Body⟩).response
        = mkJsonResponse 200 fallbackResult
    ∧ fallbackResult ≠ Json.obj [("valido", Json.bool true)] :=
  ⟨rfl, rfl, rfl, rfl, by decide⟩

/-- C2, amended: for every upstream reply whose candidate text decomposes as
prose, then one balanced `\x7b...\x7d` JSON object span, then prose, where no
open brace occurs before the span and no close brace occurs after it, the
greedy match extracts exactly that span, it parses, and the relay returns the
parsed object unchanged with status 200. -/
theorem c2_theorem (pre mid post : List Char) (v : Json) (bodyText : String)
    (hpre : lbrace ∉ pre) (hpost : rbrace ∉ post)
    (hparse : jsonParse (String.mk (lbrace :: (mid ++ [rbrace]))) = some v)
    (hbody : jsonParse bodyText
        = some (candObj (String.mk (pre ++ (lbrace :: (mid ++ [rbrace])) ++ post)))) :
    (handle "POST" (Except.ok body1) (some "k") ⟨200, bodyText⟩).response
      = mkJsonResponse 200 v := by
  rw [handle_post_body1 _ _ hbody]
  show mkJsonResponse 200
      (normalizeText (some (Json.str (String.mk (pre ++ (lbrace :: (mid ++ [rbrace])) ++ post)))))
    = mkJsonResponse 200 v
  simp only [normalizeText]
  rw [jsonMatchCL_decompose pre mid post hpre hpost]
  show mkJsonResponse 200
      (match jsonParse (String.mk (lbrace :: (mid ++ [rbrace]))) with
        | some w => w
        | none => fallbackResult) = mkJsonResponse 200 v
  rw [hparse]

/-- An upstream reply whose candidate text is
`res \x7b"valido": true\x7d end` — no brace outside the span. -/
def b2wBody : String :=
  "\x7b\"candidates\": [\x7b\"content\": \x7b\"parts\": [\x7b\"text\": \"res \x7b\\\"valido\\\": true\x7d end\"\x7d]\x7d\x7d]\x7d"

/-- C2, witness for the amended theorem at a concrete reply. -/
theorem c2_witness :
    (handle "POST" (Except.ok body1) (some "k") ⟨200, b2wBody⟩).response
      = mkJsonResponse 200 (Json.obj [("valido", Json.bool true)]) :=
  c2_theorem "res ".data "\"valido\": true".data " end".data
    (Json.obj [("valido", Json.bool true)]) b2wBody
    (by decide) (by decide) (by decide) (by decide)

/-- An upstream reply whose candidate text contains no brace at all. -/
def b3Body : String :=
  "\x7b\"candidates\": [\x7b\"content\": \x7b\"parts\": [\x7b\"text\": \"no json here\"\x7d]\x7d\x7d]\x7d"

/-- C3: whenever the candidate text yields no regex match, or the extracted
span fails to parse as JSON, the relay responds with status 200 (no error
envelope) and exactly the canonical fallback object. -/
theorem c3_theorem (bodyText t : String)
    (hbody : jsonParse bodyText = some (candObj t))
    (hfail : ((jsonMatchCL t.data).bind (fun sub => jsonParse (String.mk sub))) = none) :
    (handle "POST" (Except.ok body1) (some "k") ⟨200, bodyText⟩).response
      = mkJsonResponse 200 (Json.obj
          [("valido", Json.bool false),
           ("razonInvalidez",
             Json.str "Error al procesar la respuesta del análisis. Intenta con otra imagen."),
           ("numeroVacasDetectadas", Json.num 0 0),
           ("vacaAnalizada", Json.null),
           ("anguloCm", Json.null),
           ("puntajeLineal", Json.null),
           ("categoria", Json.null),
           ("recomendacion", Json.null)]) := by
  rw [handle_post_body1 _ _ hbody]
  show mkJsonResponse 200 (normalizeText (some (Json.str t))) = _
  simp only [normalizeText]
  cases hm : jsonMatchCL t.data with
  | none => rfl
  | some sub =>
      rw [hm] at hfail
      have hfail' : jsonParse (String.mk sub) = none := hfail
      show mkJsonResponse 200
          (match jsonParse (String.mk sub) with
            | some w => w
            | none => fallbackResult) = _
      rw [hfail']
      rfl

/-- C3, witness at a concrete brace-free candidate text. -/
theorem c3_witness :
    (handle "POST" (Except.ok body1) (some "k") ⟨200, b3Body⟩).response
      = mkJsonResponse 200 (Json.obj
          [("valido", Json.bool false),
           ("razonInvalidez",
             Json.str "Error al procesar la respuesta del análisis. Intenta con otra imagen."),
           ("numeroVacasDetectadas", Json.num 0 0),
           ("vacaAnalizada", Json.null),
           ("anguloCm", Json.null),
           ("puntajeLineal", Json.null),
           ("categoria", Json.null),
           ("recomendacion", Json.null)]) :=
  c3_theorem b3Body "no json here" (by decide) (by decide)

/-- Appending strings appends their character lists. -/
theorem string_data_append (a b : String) : (a ++ b).data = a.data ++ b.data := rfl

/-- The image-present, key-present path of the checks builds the upstream
request for the image string. -/
theorem checkAndBuild_image_str (s : String) (k : String)
    (hs : ¬ s = "") (hk : ¬ k = "") :
    checkAndBuild (Json.obj [("image", Json.str s)]) (some k)
      = .ok (Sum.inr (buildGeminiRequest s)) := by
  have h0 : checkAndBuild (Json.obj [("image", Json.str s)]) (some k)
      = if jsFalsy (some (Json.str s)) then .ok (Sum.inl badRequestResp)
        else if keyFalsy (some k) then .ok (Sum.inl configErrorResp)
        else .ok (Sum.inr (buildGeminiRequest s)) := rfl
  rw [h0, if_neg (by simp [jsFalsy, hs]), if_neg (by simp [keyFalsy, hk])]

/-- When the pre-upstream stage decides to call upstream, the handler records
exactly that request, whatever the upstream outcome. -/
theorem handle_upstreamRequest (bo : Except String Json) (k : Option String)
    (u : FetchOutcome) (gr : GeminiRequest)
    (h : preUpstream bo k = .ok (Sum.inr gr)) :
    (handle "POST" bo k u).upstreamRequest = some gr := by
  unfold handle
  rw [if_neg (by decide : ¬ ("POST" = "OPTIONS")), h]
  cases hpu : postUpstream u <;> rfl

/-- C4: a request body whose `image` field is absent, null or the empty
string gets the 400 `Image is required` envelope, and the upstream endpoint
is never called. -/
theorem c4_theorem (body : Json) (k : Option String) (u : FetchOutcome) (img : JSV)
    (himg : jsGetProp (some body) "image" = Except.ok img)
    (hfalsy : img = none ∨ img = some Json.null ∨ img = some (Json.str "")) :
    handle "POST" (Except.ok body) k u
      = ⟨mkJsonResponse 400 (Json.obj [("error", Json.str "Image is required")]), none⟩ := by
  have hf : jsFalsy img = true := by
    rcases hfalsy with h | h | h <;> subst h <;> rfl
  have hcb : checkAndBuild body k = .ok (Sum.inl badRequestResp) := by
    unfold checkAndBuild
    rw [himg]
    show (if jsFalsy img = true then Except.ok (Sum.inl badRequestResp)
          else if keyFalsy k = true then Except.ok (Sum.inl configErrorResp)
          else match img with
               | some (Json.str s) => Except.ok (Sum.inr (buildGeminiRequest s))
               | _ => Except.error "image.split is not a function")
        = Except.ok (Sum.inl badRequestResp)
    rw [if_pos hf]
  have hpre : preUpstream (Except.ok body) k = .ok (Sum.inl badRequestResp) := hcb
  unfold handle
  rw [if_neg (by decide : ¬ ("POST" = "OPTIONS")), hpre]
  rfl

/-- C4, witness: a body with no `image` field at all. -/
theorem c4_witness :
    handle "POST" (Except.ok (Json.obj [])) (some "k") ⟨200, "x"⟩
      = ⟨mkJsonResponse 400 (Json.obj [("error", Json.str "Image is required")]), none⟩ :=
  c4_theorem (Json.obj []) (some "k") ⟨200, "x"⟩ none rfl (Or.inl rfl)

/-- C5: a data-URL image (comma-separated prefix and non-empty base64
payload) is forwarded as the payload alone, with the declared MIME type fixed
to `image/jpeg` whatever the prefix declared; an image string with no comma
is forwarded whole. -/
theorem c5_theorem (pre payload whole : String) (k : String) (u : FetchOutcome)
    (hk : ¬ k = "")
    (hpre : ',' ∉ pre.data) (hpay : ',' ∉ payload.data) (hpayne : payload ≠ "")
    (hw : ',' ∉ whole.data) (hwne : ¬ whole = "") :
    (handle "POST" (Except.ok (Json.obj [("image", Json.str (pre ++ "," ++ payload))]))
        (some k) u).upstreamRequest
      = some { text := analysisPrompt, mimeType := "image/jpeg", data := payload,
               temperature := 3 / 10, topK := 32, topP := 1, maxOutputTokens := 512 }
    ∧ (handle "POST" (Except.ok (Json.obj [("image", Json.str whole)]))
        (some k) u).upstreamRequest
      = some { text := analysisPrompt, mimeType := "image/jpeg", data := whole,
               temperature := 3 / 10, topK := 32, topP := 1, maxOutputTokens := 512 } := by
  constructor
  · have hdata : (pre ++ "," ++ payload).data = pre.data ++ ',' :: payload.data := by
      rw [string_data_append, string_data_append]
      simp
    have hs : ¬ (pre ++ "," ++ payload) = "" := by
      intro he
      have hd := congrArg String.data he
      rw [hdata] at hd
      simp at hd
    have hpre' : preUpstream
        (Except.ok (Json.obj [("image", Json.str (pre ++ "," ++ payload))])) (some k)
        = .ok (Sum.inr (buildGeminiRequest (pre ++ "," ++ payload))) :=
      checkAndBuild_image_str (pre ++ "," ++ payload) k hs hk
    rw [handle_upstreamRequest _ _ u _ hpre']
    unfold buildGeminiRequest
    rw [base64DataOf_dataUrl pre payload hpre hpay hpayne]
  · have hpre' : preUpstream (Except.ok (Json.obj [("image", Json.str whole)])) (some k)
        = .ok (Sum.inr (buildGeminiRequest whole)) :=
      checkAndBuild_image_str whole k hwne hk
    rw [handle_upstreamRequest _ _ u _ hpre']
    unfold buildGeminiRequest
    rw [base64DataOf_no_comma whole hw]

/-- C5, witness at the example `data:image/png;base64,AAAA` from the spec. -/
theorem c5_witness :
    (handle "POST" (Except.ok (Json.obj [("image", Json.str "data:image/png;base64,AAAA")]))
        (some "k") ⟨503, "boom"⟩).upstreamRequest
      = some { text := analysisPrompt, mimeType := "image/jpeg", data := "AAAA",
               temperature := 3 / 10, topK := 32, topP := 1, maxOutputTokens := 512 }
    ∧ (handle "POST" (Except.ok (Json.obj [("image", Json.str "rawbase64")]))
        (some "k") ⟨503, "boom"⟩).upstreamRequest
      = some { text := analysisPrompt, mimeType := "image/jpeg", data := "rawbase64",
               temperature := 3 / 10, topK := 32, topP := 1, maxOutputTokens := 512 } := by
  have h := c5_theorem "data:image/png;base64" "AAAA" "rawbase64" "k" ⟨503, "boom"⟩
    (by decide) (by decide) (by decide) (by decide) (by decide) (by decide)
  exact h

/-- C6: every non-success upstream status is surfaced verbatim — the relay
answers with the upstream status code itself and the
`Error from Gemini API` envelope carrying the raw upstream body text. -/
theorem c6_theorem (u : FetchOutcome) (hbad : ¬ (200 ≤ u.status ∧ u.status ≤ 299)) :
    handle "POST" (Except.ok body1) (some "k") u
      = ⟨{ status := u.status, headers := jsonHeaders,
           body := some (Json.obj
             [("error", Json.str "Error from Gemini API"),
              ("details", Json.str u.bodyText)]) },
         some gemReq1⟩ := by
  have hok : fetchOk u = false := by
    unfold fetchOk
    simp only [Bool.and_eq_false_iff, decide_eq_false_iff_not]
    omega
  have hpost : postUpstream u = .ok (upstreamErrorResp u) := by
    unfold postUpstream
    rw [if_neg (by simp [hok])]
  have hpre : preUpstream (Except.ok body1) (some "k") = .ok (Sum.inr gemReq1) := rfl
  unfold handle
  rw [if_neg (by decide : ¬ ("POST" = "OPTIONS")), hpre, hpost]
  rfl

/-- C6, witness: a 503 upstream status comes back as a 503 response, not a
500. -/
theorem c6_witness :
    handle "POST" (Except.ok body1) (some "k") ⟨503, "boom"⟩
      = ⟨{ status := 503, headers := jsonHeaders,
           body := some (Json.obj
             [("error", Json.str "Error from Gemini API"),
              ("details", Json.str "boom")]) },
         some gemReq1⟩ :=
  c6_theorem ⟨503, "boom"⟩ (by decide)

/-- Lifting a success of the ok-status path to the whole handler, for the
fixed request `body1`. -/
theorem handle_post_ok (bodyText : String) (r : HttpResponse)
    (h : handleOkPath bodyText = .ok r) :
    handle "POST" (Except.ok body1) (some "k") ⟨200, bodyText⟩ = ⟨r, some gemReq1⟩ := by
  have hpre : preUpstream (Except.ok body1) (some "k") = .ok (Sum.inr gemReq1) := rfl
  have hpost : postUpstream ⟨200, bodyText⟩ = .ok r := by
    unfold postUpstream
    rw [if_pos (show fetchOk ⟨200, bodyText⟩ = true from rfl)]
    exact h
  unfold handle
  rw [if_neg (by decide : ¬ ("POST" = "OPTIONS")), hpre, hpost]

/-- Lifting a thrown exception of the ok-status path to the whole handler:
it lands on the catch-all envelope. -/
theorem handle_post_err (bodyText : String) (msg : String)
    (h : handleOkPath bodyText = .error msg) :
    handle "POST" (Except.ok body1) (some "k") ⟨200, bodyText⟩
      = ⟨catchAllResp msg, some gemReq1⟩ := by
  have hpre : preUpstream (Except.ok body1) (some "k") = .ok (Sum.inr gemReq1) := rfl
  have hpost : postUpstream ⟨200, bodyText⟩ = .error msg := by
    unfold postUpstream
    rw [if_pos (show fetchOk ⟨200, bodyText⟩ = true from rfl)]
    exact h
  unfold handle
  rw [if_neg (by decide : ¬ ("POST" = "OPTIONS")), hpre, hpost]

/-- A 200 upstream reply whose body has a candidate with a `content` object
but no `parts` field. -/
def b7Body : String := "\x7b\"candidates\": [\x7b\"content\": \x7b\x7d\x7d]\x7d"

/-- C7, counterexample: on a success reply whose candidate has a `content`
but no `parts` (`\x7b"candidates": [\x7b"content": \x7b\x7d\x7d]\x7d`), the
relay does not return the `No valid response from Gemini API` envelope with
the upstream body — reading `parts[0]` throws and the catch-all returns a 500
whose body has only an `error` field with a different message, refuting the
"likewise a content without parts" part of the claim. -/
theorem c7_counterexample :
    jsonParse b7Body
      = some (Json.obj [("candidates", Json.arr [Json.obj [("content", Json.obj [])]])])
    ∧ (handle "POST" (Except.ok body1) (some "k") ⟨200, b7Body⟩).response
        = mkJsonResponse 500
            (Json.obj [("error", Json.str "Cannot read properties of undefined (reading 0)")])
    ∧ "Cannot read properties of undefined (reading 0)"
        ≠ "No valid response from Gemini API" :=
  ⟨rfl, rfl, by decide⟩

/-- C7, amended: on a success reply, a missing `candidates`, an empty
`candidates` array (more generally a falsy `candidates[0]`), or a candidate
without `content` each yield the 500
`No valid response from Gemini API` envelope carrying the parsed upstream
body; a truthy `content` without `parts`, however, falls through to the
generic catch-all (a 500 whose body carries only the exception message). -/
theorem c7_theorem (bodyText : String) (data : Json)
    (hbody : jsonParse bodyText = some data) :
    (∀ cand, jsGetProp (some data) "candidates" = Except.ok cand →
      jsFalsy cand = true →
      (handle "POST" (Except.ok body1) (some "k") ⟨200, bodyText⟩).response
        = mkJsonResponse 500 (Json.obj
            [("error", Json.str "No valid response from Gemini API"), ("data", data)]))
    ∧ (∀ cand c0, jsGetProp (some data) "candidates" = Except.ok cand →
        jsFalsy cand = false → jsGetIdx0 cand = Except.ok c0 → jsFalsy c0 = true →
        (handle "POST" (Except.ok body1) (some "k") ⟨200, bodyText⟩).response
          = mkJsonResponse 500 (Json.obj
              [("error", Json.str "No valid response from Gemini API"), ("data", data)]))
    ∧ (∀ cand c0 content, jsGetProp (some data) "candidates" = Except.ok cand →
        jsFalsy cand = false → jsGetIdx0 cand = Except.ok c0 → jsFalsy c0 = false →
        jsGetProp c0 "content" = Except.ok content → jsFalsy content = true →
        (handle "POST" (Except.ok body1) (some "k") ⟨200, bodyText⟩).response
          = mkJsonResponse 500 (Json.obj
              [("error", Json.str "No valid response from Gemini API"), ("data", data)]))
    ∧ (∀ cand c0 content, jsGetProp (some data) "candidates" = Except.ok cand →
        jsFalsy cand = false → jsGetIdx0 cand = Except.ok c0 → jsFalsy c0 = false →
        jsGetProp c0 "content" = Except.ok content → jsFalsy content = false →
        jsGetProp content "parts" = Except.ok none →
        (handle "POST" (Except.ok body1) (some "k") ⟨200, bodyText⟩).response
          = mkJsonResponse 500 (Json.obj
              [("error",
                Json.str "Cannot read properties of undefined (reading 0)")])) := by
  refine ⟨?_, ?_, ?_, ?_⟩
  · intro cand hcand hf
    have hok : handleOkPath bodyText = .ok (shapeErrorResp data) := by
      simp only [handleOkPath]
      rw [hbody]
      simp [hcand, hf]
    rw [handle_post_ok bodyText _ hok]
    rfl
  · intro cand c0 hcand hfc hc0 hf0
    have hok : handleOkPath bodyText = .ok (shapeErrorResp data) := by
      simp only [handleOkPath]
      rw [hbody]
      simp [hcand, hfc, hc0, hf0]
    rw [handle_post_ok bodyText _ hok]
    rfl
  · intro cand c0 content hcand hfc hc0 hf0 hcontent hfcontent
    have hok : handleOkPath bodyText = .ok (shapeErrorResp data) := by
      simp only [handleOkPath]
      rw [hbody]
      simp [hcand, hfc, hc0, hf0, hcontent, hfcontent]
    rw [handle_post_ok bodyText _ hok]
    rfl
  · intro cand c0 content hcand hfc hc0 hf0 hcontent hfcontent hparts
    have herr : handleOkPath bodyText
        = .error "Cannot read properties of undefined (reading 0)" := by
      simp only [handleOkPath]
      rw [hbody]
      simp [hcand, hfc, hc0, hf0, hcontent, hfcontent, hparts,
        show jsGetIdx0 none
            = Except.error "Cannot read properties of undefined (reading 0)" from rfl]
    rw [handle_post_err bodyText _ herr]
    rfl

/-- An upstream reply body that is an empty JSON object: no `candidates`. -/
def b7aBody : String := "\x7b\x7d"

/-- C7, witness for the amended theorem: an upstream body with no
`candidates` field at all. -/
theorem c7_witness :
    (handle "POST" (Except.ok body1) (some "k") ⟨200, b7aBody⟩).response
      = mkJsonResponse 500 (Json.obj
          [("error", Json.str "No valid response from Gemini API"),
           ("data", Json.obj [])]) :=
  (c7_theorem b7aBody (Json.obj []) rfl).1 none rfl rfl

/-- A 200 upstream reply whose candidate text is the object
`\x7b"valido": false, "anguloCm": 25, "puntajeLineal": 7\x7d` — invalid by
the AnalysisResult invariant, since `valido` is false while measurement
fields are non-null. -/
def b8Body : String :=
  "\x7b\"candidates\": [\x7b\"content\": \x7b\"parts\": [\x7b\"text\": \"\x7b\\\"valido\\\": false, \\\"anguloCm\\\": 25, \\\"puntajeLineal\\\": 7\x7d\"\x7d]\x7d\x7d]\x7d"

/-- C8: a successfully parsed extracted object is returned exactly as parsed
with status 200, with no re-check against the AnalysisResult shape; in
particular a parsed object with `valido` false and non-null measurement
fields is returned unchanged. -/
theorem c8_theorem :
    (∀ bodyText t sub v, jsonParse bodyText = some (candObj t) →
        jsonMatchCL t.data = some sub → jsonParse (String.mk sub) = some v →
        (handle "POST" (Except.ok body1) (some "k") ⟨200, bodyText⟩).response
          = mkJsonResponse 200 v)
    ∧ (handle "POST" (Except.ok body1) (some "k") ⟨200, b8Body⟩).response
        = mkJsonResponse 200 (Json.obj
            [("valido", Json.bool false), ("anguloCm", Json.num 25 0),
             ("puntajeLineal", Json.num 7 0)]) := by
  constructor
  · intro bodyText t sub v hbody hm hp
    rw [handle_post_body1 _ _ hbody]
    show mkJsonResponse 200 (normalizeText (some (Json.str t))) = _
    simp only [normalizeText]
    rw [hm]
    show mkJsonResponse 200
        (match jsonParse (String.mk sub) with
          | some w => w
          | none => fallbackResult) = mkJsonResponse 200 v
    rw [hp]
  · decide

/-- C8, witness for the universally quantified part, at a candidate text that
is a bare JSON object. -/
theorem c8_witness :
    (handle "POST" (Except.ok body1) (some "k")
        ⟨200, "\x7b\"candidates\": [\x7b\"content\": \x7b\"parts\": [\x7b\"text\": \"\x7b\\\"valido\\\": true\x7d\"\x7d]\x7d\x7d]\x7d"⟩).response
      = mkJsonResponse 200 (Json.obj [("valido", Json.bool true)]) :=
  c8_theorem.1
    "\x7b\"candidates\": [\x7b\"content\": \x7b\"parts\": [\x7b\"text\": \"\x7b\\\"valido\\\": true\x7d\"\x7d]\x7d\x7d]\x7d"
    "\x7b\"valido\": true\x7d" "\x7b\"valido\": true\x7d".data
    (Json.obj [("valido", Json.bool true)]) (by decide) (by decide) (by decide)

/-- C9: every response of the handler carries the permissive CORS header set
(alone on the preflight path, extended with the JSON content type
everywhere else), and an OPTIONS request short-circuits — whatever the body,
key and upstream oracle say — to the empty-bodied 200 response with exactly
the CORS headers and no upstream call. -/
theorem c9_theorem :
    (∀ method bo k u,
        (handle method bo k u).response.headers = corsHeaders
        ∨ (handle method bo k u).response.headers
            = corsHeaders ++ [("Content-Type", "application/json")])
    ∧ (∀ bo k u, handle "OPTIONS" bo k u
        = ⟨{ status := 200, headers := corsHeaders, body := none }, none⟩) := by
  constructor
  · intro method bo k u
    unfold handle
    by_cases hm : method = "OPTIONS"
    · rw [if_pos hm]
      exact Or.inl rfl
    · rw [if_neg hm]
      cases hp : preUpstream bo k with
      | error msg => exact Or.inr rfl
      | ok s =>
          cases s with
          | inl r => exact Or.inr (preUpstream_inl_headers bo k r hp)
          | inr gr =>
              cases hpu : postUpstream u with
              | error msg => exact Or.inr rfl
              | ok r => exact Or.inr (postUpstream_ok_headers u r hpu)
  · intro bo k u
    rfl

/-- C10: a non-OPTIONS request whose body-reading throws gets the catch-all:
status 500, CORS headers, body `\x7berror: <message, or "Internal server
error" when the message is empty>\x7d` — not the 400 envelope; and the same
catch-all handles exceptions thrown after validation, e.g. a success upstream
reply whose JSON body is `null`, where reading `.candidates` throws. -/
theorem c10_theorem :
    (∀ msg k u, handle "POST" (Except.error msg) k u
        = ⟨mkJsonResponse 500 (Json.obj
            [("error",
              Json.str (if msg = "" then "Internal server error" else msg))]),
           none⟩)
    ∧ (∀ u, fetchOk u = true → jsonParse u.bodyText = some Json.null →
        handle "POST" (Except.ok body1) (some "k") u
          = ⟨mkJsonResponse 500 (Json.obj
              [("error",
                Json.str "Cannot read properties of null (reading candidates)")]),
             some gemReq1⟩) := by
  constructor
  · intro msg k u
    have hpre : preUpstream (Except.error msg) k = .error msg := rfl
    unfold handle
    rw [if_neg (by decide : ¬ ("POST" = "OPTIONS")), hpre]
    rfl
  · intro u hok hnull
    have herr : handleOkPath u.bodyText
        = .error "Cannot read properties of null (reading candidates)" := by
      simp only [handleOkPath]
      rw [hnull]
      rfl
    have hpost : postUpstream u
        = .error "Cannot read properties of null (reading candidates)" := by
      unfold postUpstream
      rw [if_pos hok]
      exact herr
    have hpre : preUpstream (Except.ok body1) (some "k") = .ok (Sum.inr gemReq1) := rfl
    unfold handle
    rw [if_neg (by decide : ¬ ("POST" = "OPTIONS")), hpre, hpost]
    rfl

/-- C10, witness: a concrete thrown body-read message, an empty message, and
a `null` upstream body. -/
theorem c10_witness :
    handle "POST" (Except.error "boom") (some "k") ⟨200, "x"⟩
      = ⟨mkJsonResponse 500 (Json.obj [("error", Json.str "boom")]), none⟩
    ∧ handle "POST" (Except.error "") (some "k") ⟨200, "x"⟩
      = ⟨mkJsonResponse 500 (Json.obj [("error", Json.str "Internal server error")]), none⟩
    ∧ handle "POST" (Except.ok body1) (some "k") ⟨200, "null"⟩
      = ⟨mkJsonResponse 500 (Json.obj
          [("error", Json.str "Cannot read properties of null (reading candidates)")]),
         some gemReq1⟩ :=
  ⟨c10_theorem.1 "boom" (some "k") ⟨200, "x"⟩,
   c10_theorem.1 "" (some "k") ⟨200, "x"⟩,
   c10_theorem.2 ⟨200, "null"⟩ rfl rfl⟩

end Rumpex
